import Mathlib

/-!
Verification of the fire-spread visualization (script.js and its near-duplicate
variant).  The development shallowly embeds the algorithmic core of the program:
the recursive fire-front boundary sampler, the environmental-to-rate model, the
geodesy meter-to-pixel conversion, the scenario radius model, and the
animator / reset state machine.  JavaScript numbers are modelled as real
numbers; DOM and network effects are modelled as explicit state fields.
-/

set_option maxRecDepth 4000

namespace FireSim

open Real

/-- A 2D screen-space offset, the element type of a boundary polygon
(source: objects of the form { x : ..., y : ... }). -/
abbrev Point : Type := ℝ × ℝ

/-- Conditional append of a candidate point, from the body of
computeBoundaryPointsRecursively (script.js lines 351-361): the candidate is
pushed when the accumulated list is empty, or when its Euclidean distance
to the previously accepted (last) point is at least minDistance. -/
noncomputable def appendBoundaryPoint (minDistance : ℝ) (points : List Point)
    (newPoint : Point) : List Point :=
  match points.getLast? with
  | none => points ++ [newPoint]
  | some lastPoint =>
      let dx := newPoint.1 - lastPoint.1
      let dy := newPoint.2 - lastPoint.2
      let dist := Real.sqrt (dx * dx + dy * dy)
      if dist ≥ minDistance then points ++ [newPoint] else points

/-- Fuel-indexed embedding of computeBoundaryPointsRecursively
(script.js lines 342-363).  The source recursion has no structural bound;
the fuel argument bounds the recursion depth.  For the call pattern the
program actually uses (theta = 0, stepIncrement = 0.01) the stop condition
theta > 2 * pi is reached after exactly 629 recursive steps, so a fuel of
630 makes the embedding agree with the source on every call
(proved below: adding fuel beyond 630 does not change the result). -/
noncomputable def computeBoundaryGo :
    ℕ → ℝ → ℝ → ℝ → ℝ → List Point → ℝ → ℝ → List Point
  | 0, _theta, _baseRadiusPx, _windAngleRad, _k, points, _stepIncrement,
      _minDistance => points
  | fuel + 1, theta, baseRadiusPx, windAngleRad, k, points, stepIncrement,
      minDistance =>
    if theta > 2 * Real.pi then points
    else
      let r := baseRadiusPx * (1 + k * Real.cos (theta - windAngleRad))
      let x := r * Real.cos theta
      let y := r * Real.sin theta
      computeBoundaryGo fuel (theta + stepIncrement) baseRadiusPx windAngleRad k
        (appendBoundaryPoint minDistance points (x, y)) stepIncrement minDistance

/-- computeBoundaryPointsRecursively (script.js lines 342-363), with the fuel
fixed at 630, which is sufficient for every call the program makes. -/
noncomputable def computeBoundaryPointsRecursively (theta baseRadiusPx
    windAngleRad k : ℝ) (points : List Point) (stepIncrement minDistance : ℝ) :
    List Point :=
  computeBoundaryGo 630 theta baseRadiusPx windAngleRad k points stepIncrement
    minDistance

/-- getCustomFireFrontPoints (script.js lines 365-371).  The source declares
minDistance with default value 3; the default is passed explicitly at the
call sites modelled below. -/
noncomputable def getCustomFireFrontPoints (baseRadiusPx windAngleDeg
    directionalFactor minDistance : ℝ) : List Point :=
  let windAngleRad := windAngleDeg * Real.pi / 180
  let weightMultiplier : ℝ := 1.5
  let k := (directionalFactor - 1) * weightMultiplier
  let stepIncrement : ℝ := 0.01
  computeBoundaryPointsRecursively 0 baseRadiusPx windAngleRad k []
    stepIncrement minDistance

/-- Call counter that mirrors the recursion structure of
computeBoundaryPointsRecursively: each invocation counts 1, a non-stopped
invocation adds the count of its single recursive call. -/
noncomputable def computeBoundaryCallCount : ℕ → ℝ → ℝ → ℕ
  | 0, _theta, _stepIncrement => 1
  | fuel + 1, theta, stepIncrement =>
    if theta > 2 * Real.pi then 1
    else 1 + computeBoundaryCallCount fuel (theta + stepIncrement) stepIncrement

/-- Spec-side radius formula: r(theta) = baseRadius * (1 + k * cos(theta -
windDirectionRad)). -/
noncomputable def specFireFrontRadius (baseRadius k windRad theta : ℝ) : ℝ :=
  baseRadius * (1 + k * Real.cos (theta - windRad))

/-- Spec-side candidate point: (r(theta) * cos theta, r(theta) * sin theta). -/
noncomputable def specCandidatePoint (baseRadius k windRad theta : ℝ) : Point :=
  (specFireFrontRadius baseRadius k windRad theta * Real.cos theta,
   specFireFrontRadius baseRadius k windRad theta * Real.sin theta)

/-- Spec-side candidate sequence: theta sampled from 0 to 2 * pi in fixed
increments of 0.01 rad (629 samples: theta = 0, 0.01, ..., 6.28; the next
value 6.29 exceeds 2 * pi), with k = (directionalFactor - 1) * 1.5 and the
wind direction converted from degrees to radians. -/
noncomputable def specCandidateList (baseRadius windDeg directionalFactor : ℝ) :
    List Point :=
  (List.range' 0 629).map fun n : ℕ =>
    specCandidatePoint baseRadius ((directionalFactor - 1) * 1.5)
      (windDeg * Real.pi / 180) ((n : ℝ) * 0.01)

/-!
Environmental-to-rate model, from updateEnvironmentalData
(script.js lines 178-231).
-/

/-- One environmental sample as assembled by updateEnvironmentalData from the
weather fetch (temp_c, wind_kph, wind_degree, humidity, precip_mm) together
with the slope and land-cover lookups. -/
structure EnvSample where
  temp_c : ℝ
  wind_kph : ℝ
  wind_degree : ℝ
  humidity : ℝ
  precip_mm : ℝ
  slope : ℝ
  landCover : String

/-- windSpeedMs = windSpeedKph / 3.6 (script.js line 188). -/
noncomputable def windSpeedMs (s : EnvSample) : ℝ := s.wind_kph / 3.6

/-- globalDirectionalFactor = exp(0.1 * windSpeedMs) (script.js line 194). -/
noncomputable def directionalFactorOf (s : EnvSample) : ℝ :=
  Real.exp (0.1 * windSpeedMs s)

/-- windModifier = exp(0.05 * windSpeedMs) (script.js line 195). -/
noncomputable def windModifier (s : EnvSample) : ℝ :=
  Real.exp (0.05 * windSpeedMs s)

/-- fuelType (script.js line 201).  In script.js both branches of the
conditional yield the string sparse; in the unnamed variant file the
forest/wood branch yields dense instead.  The primary file is embedded. -/
def fuelTypeOf (s : EnvSample) : String :=
  if s.landCover = "forest" ∨ s.landCover = "wood" then "sparse" else "sparse"

/-- baseSpreadRate = 1.0 (script.js line 202). -/
noncomputable def baseSpreadRate : ℝ := 1.0

/-- temperatureModifier = 1 + ((temperature - 20) * 0.05) (script.js 203). -/
noncomputable def temperatureModifier (s : EnvSample) : ℝ :=
  1 + ((s.temp_c - 20) * 0.05)

/-- humidityModifier = 1 - ((humidity / 100) * 0.5) (script.js line 204). -/
noncomputable def humidityModifier (s : EnvSample) : ℝ :=
  1 - ((s.humidity / 100) * 0.5)

/-- precipitationModifier = 1 - min(0.5, precip_mm * 0.2) (script.js 205). -/
noncomputable def precipitationModifier (s : EnvSample) : ℝ :=
  1 - min 0.5 (s.precip_mm * 0.2)

/-- slopeModifier = exp(1.0 * (slope / 100)) (script.js line 206). -/
noncomputable def slopeModifier (s : EnvSample) : ℝ :=
  Real.exp (1.0 * (s.slope / 100))

/-- fuelModifier = 1.2 when fuelType is dense, else 1.0 (script.js 207). -/
noncomputable def fuelModifier (s : EnvSample) : ℝ :=
  if fuelTypeOf s = "dense" then 1.2 else 1.0

/-- landCoverModifier = 1.2 for forest, 0.8 for urban or residential, else
1.0 (script.js lines 208-209). -/
noncomputable def landCoverModifier (s : EnvSample) : ℝ :=
  if s.landCover = "forest" then 1.2
  else if s.landCover = "urban" ∨ s.landCover = "residential" then 0.8
  else 1.0

/-- effectiveSpreadRate assignment (script.js lines 211-213). -/
noncomputable def effectiveSpreadRateOf (s : EnvSample) : ℝ :=
  baseSpreadRate * windModifier s * temperatureModifier s * slopeModifier s *
    fuelModifier s * humidityModifier s * precipitationModifier s *
    landCoverModifier s

/-!
Geodesy, scenario radii and the animator state machine
(script.js lines 80-91, 24-44, 376-509).
-/

/-- A geographic coordinate (Leaflet latlng). -/
structure LatLng where
  lat : ℝ
  lng : ℝ

/-- metersToPixels (script.js lines 80-91).  The external Leaflet projection
map.latLngToContainerPoint is abstracted as the function project; the
reference point (currentCenter || fireStartLatLng) is abstracted as center,
with the source fallback returning the input unchanged when no reference
point is set. -/
noncomputable def metersToPixels (project : LatLng → ℝ × ℝ)
    (center : Option LatLng) (meters : ℝ) : ℝ :=
  match center with
  | none => meters
  | some c =>
      let meterPerDegree := 40075000 * Real.cos (c.lat * Real.pi / 180) / 360
      let offsetLng := c.lng + meters / meterPerDegree
      let p1 := project c
      let p2 := project ⟨c.lat, offsetLng⟩
      |p2.1 - p1.1|

/-- bestMultiplier = 0.8 (script.js line 25). -/
noncomputable def bestMultiplier : ℝ := 0.8

/-- neutralMultiplier = 1.0 (script.js line 26). -/
noncomputable def neutralMultiplier : ℝ := 1.0

/-- worstMultiplier = 1.2 (script.js line 27). -/
noncomputable def worstMultiplier : ℝ := 1.2

/-- displayScaleFactor = 5 (script.js line 31; the unnamed variant file uses
1).  The primary file is embedded. -/
noncomputable def displayScaleFactor : ℝ := 5

/-- simulationSteps = totalSimTimeMin / simTimeStepMinutes = 30 / 1.0 = 30
(script.js lines 35-39), modelled as a natural number since the time index
is integral (the slider is integer-stepped and ticks advance by 1). -/
def simulationSteps : ℕ := 30

/-- The three scenario radii computed at each tick
(script.js lines 399-401): timeIndex * effectiveSpreadRate * multiplier. -/
noncomputable def animScenarioRadii (timeIndex : ℕ) (rate : ℝ) : ℝ × ℝ × ℝ :=
  ((timeIndex : ℝ) * rate * bestMultiplier,
   (timeIndex : ℝ) * rate * neutralMultiplier,
   (timeIndex : ℝ) * rate * worstMultiplier)

/-- The three pixel base radii handed to getCustomFireFrontPoints
(script.js lines 403-405): metersToPixels(radius) * displayScaleFactor. -/
noncomputable def animScenarioRadiiPx (project : LatLng → ℝ × ℝ)
    (center : Option LatLng) (timeIndex : ℕ) (rate : ℝ) : ℝ × ℝ × ℝ :=
  (metersToPixels project center (animScenarioRadii timeIndex rate).1 *
     displayScaleFactor,
   metersToPixels project center (animScenarioRadii timeIndex rate).2.1 *
     displayScaleFactor,
   metersToPixels project center (animScenarioRadii timeIndex rate).2.2 *
     displayScaleFactor)

/-- Observable program state shared by the simulation functions: the globals
fireStartLatLng and simulationRunning, the DOM elements the functions write
(slider value, displayed time, info texts, emergency banner, resource
markers), and the single pending animator timeout and environmental-poll
timeout (arguments of the scheduled call, none when nothing is scheduled). -/
structure SimState where
  fireStartLatLng : Option LatLng
  simulationRunning : Bool
  timeSliderValue : ℕ
  displayedMinutes : ℕ
  coordsText : String
  addressText : String
  reasoningText : String
  nearestText : String
  emergencyShown : Bool
  markerCount : ℕ
  animPending : Option ℕ
  pollPending : Option ℕ
  envUpdatesRequested : ℕ

/-- One invocation of animateFireSpread (script.js lines 389-444) acting on
the modelled state.  When timeIndex has reached simulationSteps the
invocation clears the running flag and schedules nothing further; otherwise
it renders (the geometry it draws is animScenarioRadiiPx fed through
getCustomFireFrontPoints; the canvas itself is external), updates the slider
and time label, and schedules the next invocation at timeIndex + 1. -/
def animateFireSpreadStep (s : SimState) (timeIndex : ℕ) : SimState :=
  if simulationSteps ≤ timeIndex then
    { s with simulationRunning := false, animPending := none }
  else
    { s with timeSliderValue := timeIndex,
             displayedMinutes := timeIndex,
             animPending := some (timeIndex + 1) }

/-- simulateFireSpread (script.js lines 376-387): without an ignition point
it alerts and returns without touching any state; with one it sets
simulationRunning and synchronously runs the timeIndex = 0 invocation of
animateFireSpread.  The returned option is the alert message, if any. -/
def simulateFireSpread (s : SimState) : SimState × Option String :=
  match s.fireStartLatLng with
  | none =>
      (s, some "Please click on the map to set the starting point of the fire first.")
  | some _ =>
      let s1 := { s with simulationRunning := true }
      (animateFireSpreadStep s1 0, none)

/-- Event-loop driver: repeatedly executes the pending animator timeout,
recording the timeIndex argument of each executed invocation, until nothing
is pending or the fuel runs out. -/
def runAnimPending : ℕ → SimState → SimState × List ℕ
  | 0, s => (s, [])
  | fuel + 1, s =>
      match s.animPending with
      | none => (s, [])
      | some t =>
          let r := runAnimPending fuel (animateFireSpreadStep s t)
          (r.1, t :: r.2)

/-- clearFire (script.js lines 458-472): clears the canvas, the ignition
point, the four info texts, the slider and time label, hides the emergency
banner and removes the resource markers.  It does not touch
simulationRunning and does not cancel any pending timeout. -/
def clearFire (s : SimState) : SimState :=
  { s with fireStartLatLng := none,
           coordsText := "Coordinates: Not set",
           addressText := "Address: Not set",
           reasoningText := "Reasoning: Not set",
           nearestText := "Nearest fire station: Not set",
           timeSliderValue := 0,
           displayedMinutes := 0,
           emergencyShown := false,
           markerCount := 0 }

/-- One invocation of recursiveUpdateEnvData (script.js lines 477-486): it
returns immediately when simulationRunning is false (scheduling nothing);
otherwise it requests an environmental update when the ignition point is
set, and in either case reschedules itself with iteration + 1. -/
def recursiveUpdateEnvDataStep (s : SimState) (iteration : ℕ) : SimState :=
  if s.simulationRunning = false then
    { s with pollPending := none }
  else if s.fireStartLatLng.isSome then
    { s with envUpdatesRequested := s.envUpdatesRequested + 1,
             pollPending := some (iteration + 1) }
  else
    { s with pollPending := some (iteration + 1) }

/-- Concrete projector used for closed evaluations: maps a geographic point
to the screen point (lng, lat), one screen unit per degree. -/
def degreeProjector : LatLng → ℝ × ℝ := fun p => (p.lng, p.lat)

/-!
Helper lemmas about the boundary sampler.
-/

/-- For sample indices up to 628 the angle n * 0.01 has not yet passed
2 * pi, so the recursion continues. -/
lemma not_gt_twoPi {n : ℕ} (h : n ≤ 628) :
    ¬ ((n : ℝ) * 0.01 > 2 * Real.pi) := by
  have h1 : (n : ℝ) ≤ 628 := by exact_mod_cast h
  have h2 : (3.1415 : ℝ) < Real.pi := Real.pi_gt_d4
  push_neg
  nlinarith

/-- From sample index 629 on, the angle n * 0.01 exceeds 2 * pi, so the
recursion stops. -/
lemma gt_twoPi {n : ℕ} (h : 629 ≤ n) :
    (n : ℝ) * 0.01 > 2 * Real.pi := by
  have h1 : (629 : ℝ) ≤ (n : ℝ) := by exact_mod_cast h
  have h2 : Real.pi < 3.1416 := Real.pi_lt_d4
  nlinarith

/-- Central characterization: with enough fuel, the recursion starting at
angle n * 0.01 is the greedy fold of appendBoundaryPoint over the remaining
candidate points at angles n * 0.01, (n+1) * 0.01, ..., 628 * 0.01. -/
lemma computeBoundaryGo_eq_foldl (base wind k minDist : ℝ) :
    ∀ (m n : ℕ) (acc : List Point), 629 - n ≤ m →
      computeBoundaryGo m ((n : ℝ) * 0.01) base wind k acc 0.01 minDist
        = List.foldl (appendBoundaryPoint minDist) acc
            ((List.range' n (629 - n)).map
              (fun i : ℕ => specCandidatePoint base k wind ((i : ℝ) * 0.01))) := by
  intro m
  induction m with
  | zero =>
      intro n acc h
      have h0 : 629 - n = 0 := by omega
      rw [h0]
      simp [computeBoundaryGo]
  | succ m ih =>
      intro n acc h
      by_cases hn : 629 ≤ n
      · have h0 : 629 - n = 0 := by omega
        rw [h0]
        simp only [List.range'_zero, List.map_nil, List.foldl_nil]
        simp only [computeBoundaryGo]
        rw [if_pos (gt_twoPi hn)]
      · have hn' : n ≤ 628 := by omega
        have h1 : 629 - n = (629 - (n + 1)) + 1 := by omega
        rw [h1, List.range'_succ, List.map_cons, List.foldl_cons]
        simp only [computeBoundaryGo]
        rw [if_neg (not_gt_twoPi hn')]
        have hθ : (n : ℝ) * 0.01 + 0.01 = ((n + 1 : ℕ) : ℝ) * 0.01 := by
          push_cast; ring
        rw [hθ]
        have ihh := ih (n + 1)
          (appendBoundaryPoint minDist acc
            (specCandidatePoint base k wind ((n : ℝ) * 0.01))) (by omega)
        simp only [specCandidatePoint, specFireFrontRadius] at ihh ⊢
        exact ihh

/-- The entry point getCustomFireFrontPoints is the greedy fold of
appendBoundaryPoint over the spec-side candidate list. -/
lemma getCustomFireFrontPoints_eq_foldl (base windDeg df minDist : ℝ) :
    getCustomFireFrontPoints base windDeg df minDist
      = List.foldl (appendBoundaryPoint minDist) []
          (specCandidateList base windDeg df) := by
  unfold getCustomFireFrontPoints computeBoundaryPointsRecursively
    specCandidateList
  have h := computeBoundaryGo_eq_foldl base (windDeg * Real.pi / 180)
    ((df - 1) * 1.5) minDist 630 0 [] (by omega)
  simp only [Nat.cast_zero, zero_mul, Nat.sub_zero] at h
  exact h

/-- The spacing relation between two consecutively accepted points: their
Euclidean distance, computed as in the source, is at least d. -/
noncomputable def spacedRel (d : ℝ) (p q : Point) : Prop :=
  Real.sqrt ((q.1 - p.1) * (q.1 - p.1) + (q.2 - p.2) * (q.2 - p.2)) ≥ d

/-- appendBoundaryPoint preserves the consecutive-spacing chain: the new
point is only accepted when its distance to the previous accepted point
passes the threshold. -/
lemma chain_appendBoundaryPoint (d : ℝ) (pts : List Point) (p : Point)
    (h : List.Chain' (spacedRel d) pts) :
    List.Chain' (spacedRel d) (appendBoundaryPoint d pts p) := by
  cases hl : pts.getLast? with
  | none =>
      simp only [appendBoundaryPoint, hl]
      refine List.chain'_append.mpr ⟨h, List.chain'_singleton p, ?_⟩
      intro x hx
      rw [hl] at hx
      cases hx
  | some lp =>
      simp only [appendBoundaryPoint, hl]
      split_ifs with hd
      · refine List.chain'_append.mpr ⟨h, List.chain'_singleton p, ?_⟩
        intro x hx y hy
        rw [hl] at hx
        cases hx
        cases hy
        exact hd
      · exact h

/-- Folding appendBoundaryPoint over any candidate list preserves the
consecutive-spacing chain. -/
lemma chain_foldl_appendBoundaryPoint (d : ℝ) :
    ∀ (l : List Point) (acc : List Point), List.Chain' (spacedRel d) acc →
      List.Chain' (spacedRel d)
        (List.foldl (appendBoundaryPoint d) acc l) := by
  intro l
  induction l with
  | nil => intro acc h; exact h
  | cons c cs ih =>
      intro acc h
      exact ih _ (chain_appendBoundaryPoint d acc c h)

/-- appendBoundaryPoint never removes points. -/
lemma length_le_appendBoundaryPoint (d : ℝ) (pts : List Point) (p : Point) :
    pts.length ≤ (appendBoundaryPoint d pts p).length := by
  cases hl : pts.getLast? with
  | none => simp [appendBoundaryPoint, hl]
  | some lp =>
      simp only [appendBoundaryPoint, hl]
      split_ifs with hd
      · simp
      · exact le_rfl

/-- appendBoundaryPoint adds at most one point. -/
lemma appendBoundaryPoint_length_le (d : ℝ) (pts : List Point) (p : Point) :
    (appendBoundaryPoint d pts p).length ≤ pts.length + 1 := by
  cases hl : pts.getLast? with
  | none => simp [appendBoundaryPoint, hl]
  | some lp =>
      simp only [appendBoundaryPoint, hl]
      split_ifs with hd
      · simp
      · exact Nat.le_succ _

/-- Folding appendBoundaryPoint never shrinks the accumulator. -/
lemma length_le_foldl_appendBoundaryPoint (d : ℝ) :
    ∀ (l : List Point) (acc : List Point),
      acc.length ≤ (List.foldl (appendBoundaryPoint d) acc l).length := by
  intro l
  induction l with
  | nil => intro acc; exact le_rfl
  | cons c cs ih =>
      intro acc
      exact le_trans (length_le_appendBoundaryPoint d acc c) (ih _)

/-- Folding appendBoundaryPoint adds at most one point per candidate. -/
lemma foldl_appendBoundaryPoint_length_le (d : ℝ) :
    ∀ (l : List Point) (acc : List Point),
      (List.foldl (appendBoundaryPoint d) acc l).length
        ≤ acc.length + l.length := by
  intro l
  induction l with
  | nil => intro acc; simp
  | cons c cs ih =>
      intro acc
      calc (List.foldl (appendBoundaryPoint d) (appendBoundaryPoint d acc c)
              cs).length
          ≤ (appendBoundaryPoint d acc c).length + cs.length := ih _
        _ ≤ acc.length + 1 + cs.length := by
              have := appendBoundaryPoint_length_le d acc c
              omega
        _ = acc.length + (c :: cs).length := by simp; omega

/-- Every point of appendBoundaryPoint d pts p is a point of pts or is p. -/
lemma mem_appendBoundaryPoint {d : ℝ} {pts : List Point} {p q : Point}
    (h : q ∈ appendBoundaryPoint d pts p) : q ∈ pts ∨ q = p := by
  cases hl : pts.getLast? with
  | none =>
      simp only [appendBoundaryPoint, hl] at h
      simpa using h
  | some lp =>
      simp only [appendBoundaryPoint, hl] at h
      split_ifs at h with hd
      · simpa using h
      · exact Or.inl h

/-- If every candidate and every accumulated point is the origin, so is
every point of the fold. -/
lemma foldl_appendBoundaryPoint_origin (d : ℝ) :
    ∀ (l : List Point), (∀ c ∈ l, c = ((0 : ℝ), (0 : ℝ))) →
      ∀ (acc : List Point), (∀ q ∈ acc, q = ((0 : ℝ), (0 : ℝ))) →
        ∀ q ∈ List.foldl (appendBoundaryPoint d) acc l,
          q = ((0 : ℝ), (0 : ℝ)) := by
  intro l
  induction l with
  | nil => intro _ acc hacc q hq; exact hacc q hq
  | cons c cs ih =>
      intro hl acc hacc q hq
      refine ih (fun x hx => hl x (List.mem_cons_of_mem c hx)) _ ?_ q hq
      intro x hx
      rcases mem_appendBoundaryPoint hx with h | h
      · exact hacc x h
      · rw [h]; exact hl c (List.mem_cons_self c cs)

/-- With enough fuel, the recursion starting at angle n * 0.01 makes exactly
630 - n invocations (one per sample index from n to 628, plus the stopping
invocation at index 629). -/
lemma callCount_eq :
    ∀ (m n : ℕ), n ≤ 629 → 629 - n ≤ m →
      computeBoundaryCallCount m ((n : ℝ) * 0.01) 0.01 = 630 - n := by
  intro m
  induction m with
  | zero =>
      intro n h1 h2
      have hn : n = 629 := by omega
      subst hn
      simp [computeBoundaryCallCount]
  | succ m ih =>
      intro n h1 h2
      by_cases hn : n = 629
      · subst hn
        simp only [computeBoundaryCallCount]
        rw [if_pos (gt_twoPi le_rfl)]
      · have hn' : n ≤ 628 := by omega
        simp only [computeBoundaryCallCount]
        rw [if_neg (not_gt_twoPi hn')]
        have hθ : (n : ℝ) * 0.01 + 0.01 = ((n + 1 : ℕ) : ℝ) * 0.01 := by
          push_cast; ring
        rw [hθ, ih (n + 1) (by omega) (by omega)]
        omega

/-!
Claim theorems.
-/

/-- C1: the fire-front boundary generator samples theta from 0 to 2 * pi in
fixed increments of 0.01 rad, each candidate point being
(r * cos theta, r * sin theta) with r = baseRadius * (1 + k * cos(theta -
windDirectionRad)), k = (directionalFactor - 1) * 1.5 and the wind direction
converted from degrees to radians; the output is exactly the greedy
acceptance fold over that candidate sequence, so the generator is a pure
function of its four inputs holding no state between calls. -/
theorem fireFront_polar_sampling_C1 (base windDeg df minDist : ℝ) :
    getCustomFireFrontPoints base windDeg df minDist
      = List.foldl (appendBoundaryPoint minDist) []
          (specCandidateList base windDeg df) :=
  getCustomFireFrontPoints_eq_foldl base windDeg df minDist

/-- With the default minimum spacing 3, once the accumulator is the
singleton origin, folding further origin candidates never appends another
point: their distance to the last accepted point is sqrt 0 = 0 < 3. -/
lemma foldl_appendBoundaryPoint_origin_singleton :
    ∀ (l : List Point), (∀ c ∈ l, c = ((0 : ℝ), (0 : ℝ))) →
      List.foldl (appendBoundaryPoint 3) [((0 : ℝ), (0 : ℝ))] l
        = [((0 : ℝ), (0 : ℝ))] := by
  intro l
  induction l with
  | nil => intro _; rfl
  | cons c cs ih =>
      intro hl
      have hc : c = ((0 : ℝ), (0 : ℝ)) := hl c (List.mem_cons_self c cs)
      have happ : appendBoundaryPoint 3 [((0 : ℝ), (0 : ℝ))]
          ((0 : ℝ), (0 : ℝ)) = [((0 : ℝ), (0 : ℝ))] := by
        simp only [appendBoundaryPoint, List.getLast?_singleton]
        split_ifs with h
        · exfalso
          norm_num [Real.sqrt_zero] at h
        · rfl
      rw [List.foldl_cons, hc, happ]
      exact ih fun x hx => hl x (List.mem_cons_of_mem c hx)

/-- C7: the generator returns at least one point for every input, and with
base radius 0 and the default minimum spacing 3 it returns exactly the
one-point sequence at the origin (so every returned point coincides with
the origin), for any wind direction and any directional factor. -/
theorem fireFront_zero_radius_C7 (base windDeg df minDist : ℝ) :
    getCustomFireFrontPoints base windDeg df minDist ≠ []
      ∧ getCustomFireFrontPoints 0 windDeg df 3
          = [((0 : ℝ), (0 : ℝ))] := by
  constructor
  · rw [getCustomFireFrontPoints_eq_foldl]
    have hr : List.range' 0 629 = 0 :: List.range' 1 628 := by
      rw [List.range'_succ]
    have hcons : specCandidateList base windDeg df
        = specCandidatePoint base ((df - 1) * 1.5) (windDeg * Real.pi / 180)
            ((0 : ℕ) * 0.01)
          :: (List.range' 1 628).map
              (fun n : ℕ => specCandidatePoint base ((df - 1) * 1.5)
                (windDeg * Real.pi / 180) ((n : ℝ) * 0.01)) := by
      unfold specCandidateList
      rw [hr, List.map_cons]
    rw [hcons, List.foldl_cons]
    apply List.ne_nil_of_length_pos
    calc 0 < (appendBoundaryPoint minDist []
            (specCandidatePoint base ((df - 1) * 1.5)
              (windDeg * Real.pi / 180) ((0 : ℕ) * 0.01))).length := by
              simp [appendBoundaryPoint]
      _ ≤ _ := length_le_foldl_appendBoundaryPoint minDist _ _
  · rw [getCustomFireFrontPoints_eq_foldl]
    have hall : ∀ c ∈ specCandidateList 0 windDeg df,
        c = ((0 : ℝ), (0 : ℝ)) := by
      intro c hc
      simp only [specCandidateList, List.mem_map] at hc
      obtain ⟨n, _, rfl⟩ := hc
      simp [specCandidatePoint, specFireFrontRadius]
    have hr : List.range' 0 629 = 0 :: List.range' 1 628 := by
      rw [List.range'_succ]
    have hcons : specCandidateList 0 windDeg df
        = specCandidatePoint 0 ((df - 1) * 1.5) (windDeg * Real.pi / 180)
            ((0 : ℕ) * 0.01)
          :: (List.range' 1 628).map
              (fun n : ℕ => specCandidatePoint 0 ((df - 1) * 1.5)
                (windDeg * Real.pi / 180) ((n : ℝ) * 0.01)) := by
      unfold specCandidateList
      rw [hr, List.map_cons]
    have h0 : specCandidatePoint 0 ((df - 1) * 1.5) (windDeg * Real.pi / 180)
        ((0 : ℕ) * 0.01) = ((0 : ℝ), (0 : ℝ)) := by
      simp [specCandidatePoint, specFireFrontRadius]
    have happend : appendBoundaryPoint 3 [] ((0 : ℝ), (0 : ℝ))
        = [((0 : ℝ), (0 : ℝ))] := by
      simp [appendBoundaryPoint]
    rw [hcons, List.foldl_cons, h0, happend]
    apply foldl_appendBoundaryPoint_origin_singleton
    intro c hc
    apply hall
    rw [hcons]
    exact List.mem_cons_of_mem _ hc

/-- C10: the boundary sampler terminates on every input of
getCustomFireFrontPoints: starting at theta = 0 with step 0.01 the stop
condition theta > 2 * pi is reached within 630 invocations (extra fuel
beyond 630 never changes the result), the invocation count is exactly 630,
and the returned sequence has at most 629 points. -/
theorem fireFront_termination_C10 (base windDeg df minDist : ℝ) (extra : ℕ) :
    computeBoundaryGo (630 + extra) 0 base (windDeg * Real.pi / 180)
        ((df - 1) * 1.5) [] 0.01 minDist
      = getCustomFireFrontPoints base windDeg df minDist
    ∧ computeBoundaryCallCount (630 + extra) 0 0.01 = 630
    ∧ (getCustomFireFrontPoints base windDeg df minDist).length ≤ 629 := by
  refine ⟨?_, ?_, ?_⟩
  · have h := computeBoundaryGo_eq_foldl base (windDeg * Real.pi / 180)
      ((df - 1) * 1.5) minDist (630 + extra) 0 [] (by omega)
    simp only [Nat.cast_zero, zero_mul, Nat.sub_zero] at h
    rw [h, getCustomFireFrontPoints_eq_foldl]
    unfold specCandidateList
    rfl
  · have h := callCount_eq (630 + extra) 0 (by omega) (by omega)
    simp only [Nat.cast_zero, zero_mul, Nat.sub_zero] at h
    exact h
  · rw [getCustomFireFrontPoints_eq_foldl]
    have h := foldl_appendBoundaryPoint_length_le minDist
      (specCandidateList base windDeg df) []
    simpa [specCandidateList] using h

attribute [irreducible] computeBoundaryGo computeBoundaryPointsRecursively
  getCustomFireFrontPoints computeBoundaryCallCount specCandidateList

/-- C2: in every boundary the generator returns, each pair of consecutive
accepted points is at least minSpacing apart (the wrap-around closing
segment is not part of the chain and is unconstrained), and a candidate is
appended to an empty accumulator unconditionally while a candidate offered
to a non-empty accumulator is appended exactly when its distance to the
previously accepted point reaches minSpacing. -/
theorem fireFront_minimum_spacing_C2 (base windDeg df minDist : ℝ) :
    List.Chain' (spacedRel minDist)
        (getCustomFireFrontPoints base windDeg df minDist)
      ∧ (∀ p : Point, appendBoundaryPoint minDist [] p = [p])
      ∧ (∀ (pts : List Point) (q p : Point),
          appendBoundaryPoint minDist (pts ++ [q]) p
            = if Real.sqrt ((p.1 - q.1) * (p.1 - q.1) +
                  (p.2 - q.2) * (p.2 - q.2)) ≥ minDist
              then (pts ++ [q]) ++ [p] else pts ++ [q]) := by
  refine ⟨?_, ?_, ?_⟩
  · rw [getCustomFireFrontPoints_eq_foldl]
    exact chain_foldl_appendBoundaryPoint minDist _ [] List.chain'_nil
  · intro p
    simp [appendBoundaryPoint]
  · intro pts q p
    simp only [appendBoundaryPoint, List.getLast?_concat]


/-- C3: for every environmental sample, the effective spread rate equals
the product 1.0 * exp(0.05 * windSpeed_ms) * (1 + (temperature_C - 20) *
0.05) * exp(slope_pct / 100) * fuelModifier * (1 - (humidity_pct / 100) *
0.5) * (1 - min(0.5, precip_mm * 0.2)) * landCoverModifier, with
fuelModifier 1.2 exactly when the fuel density class is dense (1.0
otherwise) and landCoverModifier 1.2 for forest, 0.8 for urban or
residential, 1.0 otherwise. -/
theorem spreadRate_formula_C3 (s : EnvSample) :
    effectiveSpreadRateOf s =
      1.0 * Real.exp (0.05 * windSpeedMs s)
        * (1 + (s.temp_c - 20) * 0.05)
        * Real.exp (s.slope / 100)
        * (if fuelTypeOf s = "dense" then 1.2 else 1.0)
        * (1 - (s.humidity / 100) * 0.5)
        * (1 - min 0.5 (s.precip_mm * 0.2))
        * (if s.landCover = "forest" then 1.2
           else if s.landCover = "urban" ∨ s.landCover = "residential"
           then 0.8 else 1.0) := by
  unfold effectiveSpreadRateOf baseSpreadRate windModifier temperatureModifier
    slopeModifier fuelModifier humidityModifier precipitationModifier
    landCoverModifier
  have h : (1.0 : ℝ) * (s.slope / 100) = s.slope / 100 := by norm_num
  rw [h]

/-- C4 counterexample: the sample with temperature 0 C, no wind, no
humidity, no precipitation, flat slope and unknown land cover has effective
spread rate exactly 0, which is not strictly positive, refuting the claim
that the rate is positive for every sample with finite fields. -/
theorem spreadRate_positivity_counterexample_C4 :
    ¬ (0 < effectiveSpreadRateOf ⟨0, 0, 0, 0, 0, 0, "unknown"⟩) := by
  have ht : temperatureModifier ⟨0, 0, 0, 0, 0, 0, "unknown"⟩ = 0 := by
    unfold temperatureModifier
    norm_num
  have h : effectiveSpreadRateOf ⟨0, 0, 0, 0, 0, 0, "unknown"⟩ = 0 := by
    unfold effectiveSpreadRateOf
    rw [ht]
    ring
  rw [h]
  exact lt_irrefl 0

/-- C4 amended: the effective spread rate is strictly positive for every
environmental sample whose temperature exceeds 0 C and whose humidity is
below 200 percent; without those bounds the temperature modifier
(respectively humidity modifier) can reach zero or go negative, and the
code applies no clamping. -/
theorem spreadRate_positive_amended_C4 (s : EnvSample) (ht : 0 < s.temp_c)
    (hh : s.humidity < 200) : 0 < effectiveSpreadRateOf s := by
  have h1 : (0 : ℝ) < windModifier s := by
    unfold windModifier; exact Real.exp_pos _
  have h2 : (0 : ℝ) < temperatureModifier s := by
    unfold temperatureModifier; nlinarith
  have h3 : (0 : ℝ) < slopeModifier s := by
    unfold slopeModifier; exact Real.exp_pos _
  have h4 : (0 : ℝ) < fuelModifier s := by
    unfold fuelModifier; split_ifs <;> norm_num
  have h5 : (0 : ℝ) < humidityModifier s := by
    unfold humidityModifier; nlinarith
  have h6 : (0 : ℝ) < precipitationModifier s := by
    unfold precipitationModifier
    have := min_le_left (0.5 : ℝ) (s.precip_mm * 0.2)
    linarith
  have h7 : (0 : ℝ) < landCoverModifier s := by
    unfold landCoverModifier; split_ifs <;> norm_num
  have h0 : (0 : ℝ) < baseSpreadRate := by unfold baseSpreadRate; norm_num
  unfold effectiveSpreadRateOf
  exact mul_pos (mul_pos (mul_pos (mul_pos (mul_pos (mul_pos
    (mul_pos h0 h1) h2) h3) h4) h5) h6) h7

/-- C4 witness: the amended positivity theorem applies to a concrete benign
sample. -/
theorem spreadRate_positive_witness_C4 :
    0 < effectiveSpreadRateOf ⟨20, 0, 0, 50, 0, 0, "grass"⟩ :=
  spreadRate_positive_amended_C4 ⟨20, 0, 0, 50, 0, 0, "grass"⟩
    (by norm_num) (by norm_num)

/-- C5 counterexample: with the degree projector, center at latitude and
longitude 0, time index 1, rate 1 and the neutral scenario, the pixel base
radius actually handed to the boundary generator differs from the plain
meter-to-pixel conversion of the scenario radius: the code multiplies the
conversion by displayScaleFactor = 5, so further scaling is applied. -/
theorem scenario_radius_counterexample_C5 :
    (animScenarioRadiiPx degreeProjector (some ⟨0, 0⟩) 1 1).2.1
      ≠ metersToPixels degreeProjector (some ⟨0, 0⟩)
          (animScenarioRadii 1 1).2.1 := by
  unfold animScenarioRadiiPx animScenarioRadii metersToPixels degreeProjector
    displayScaleFactor neutralMultiplier
  norm_num [Real.cos_zero, abs_of_nonneg]

/-- C5 amended: the scenario radius is timeIndex * rate * multiplier for the
multipliers 0.8, 1.0, 1.2, and the base radius handed to the boundary
generator is that radius converted by metersToPixels and then multiplied by
the constant displayScaleFactor (5 in script.js, 1 in the variant file). -/
theorem scenario_radius_amended_C5 (project : LatLng → ℝ × ℝ)
    (center : Option LatLng) (t : ℕ) (rate : ℝ) :
    animScenarioRadii t rate
        = ((t : ℝ) * rate * bestMultiplier,
           (t : ℝ) * rate * neutralMultiplier,
           (t : ℝ) * rate * worstMultiplier)
      ∧ animScenarioRadiiPx project center t rate
        = (metersToPixels project center ((t : ℝ) * rate * bestMultiplier)
             * displayScaleFactor,
           metersToPixels project center ((t : ℝ) * rate * neutralMultiplier)
             * displayScaleFactor,
           metersToPixels project center ((t : ℝ) * rate * worstMultiplier)
             * displayScaleFactor) :=
  ⟨rfl, rfl⟩

/-- C6: for every positive time index and positive fixed rate the three
scenario radii are ordered best, neutral, worst. -/
theorem scenario_ordering_C6 (t : ℕ) (rate : ℝ) (ht : 0 < t)
    (hr : 0 < rate) :
    (animScenarioRadii t rate).1 ≤ (animScenarioRadii t rate).2.1
      ∧ (animScenarioRadii t rate).2.1 ≤ (animScenarioRadii t rate).2.2 := by
  unfold animScenarioRadii bestMultiplier neutralMultiplier worstMultiplier
  have h0 : (0 : ℝ) ≤ (t : ℝ) * rate := by positivity
  constructor <;> nlinarith

/-- C6 witness: the ordering theorem applies at time index 1 with rate 1. -/
theorem scenario_ordering_witness_C6 :
    (animScenarioRadii 1 1).1 ≤ (animScenarioRadii 1 1).2.1
      ∧ (animScenarioRadii 1 1).2.1 ≤ (animScenarioRadii 1 1).2.2 :=
  scenario_ordering_C6 1 1 (by decide) one_pos

/-- Running the pending animator chain to quiescence: if some invocation at
time index 30 - k is pending (k < 30), then with sufficient fuel the chain
executes exactly the indices 30 - k, ..., 30 and ends with the running flag
cleared and nothing scheduled. -/
lemma runAnimPending_complete :
    ∀ (k : ℕ) (s : SimState), s.animPending = some (30 - k) → k < 30 →
      (runAnimPending (k + 2) s).2 = List.range' (30 - k) (k + 1)
        ∧ (runAnimPending (k + 2) s).1.simulationRunning = false
        ∧ (runAnimPending (k + 2) s).1.animPending = none := by
  intro k
  induction k with
  | zero =>
      intro s hp _
      simp only [Nat.sub_zero] at hp
      simp [runAnimPending, hp, animateFireSpreadStep, simulationSteps]
  | succ k ih =>
      intro s hp hk
      have hstep : animateFireSpreadStep s (30 - (k + 1))
          = { s with timeSliderValue := 30 - (k + 1),
                     displayedMinutes := 30 - (k + 1),
                     animPending := some (30 - (k + 1) + 1) } := by
        unfold animateFireSpreadStep
        rw [if_neg]
        simp only [simulationSteps]
        omega
      have hnext : 30 - (k + 1) + 1 = 30 - k := by omega
      have h1 := ih { s with timeSliderValue := 30 - (k + 1),
                             displayedMinutes := 30 - (k + 1),
                             animPending := some (30 - (k + 1) + 1) }
        (by show some (30 - (k + 1) + 1) = some (30 - k); rw [hnext])
        (by omega)
      have hrun : runAnimPending (k + 1 + 2) s
          = ((runAnimPending (k + 2) (animateFireSpreadStep s
                (30 - (k + 1)))).1,
             (30 - (k + 1)) :: (runAnimPending (k + 2) (animateFireSpreadStep
                s (30 - (k + 1)))).2) := by
        conv_lhs => rw [show k + 1 + 2 = (k + 2) + 1 from rfl]
        rw [runAnimPending, hp]
      rw [hrun, hstep]
      refine ⟨?_, h1.2.1, h1.2.2⟩
      rw [h1.1, hnext]
      have : List.range' (30 - (k + 1)) (k + 1 + 1)
          = (30 - (k + 1)) :: List.range' (30 - (k + 1) + 1) (k + 1) := by
        rw [List.range'_succ]
      rw [this, hnext]

/-- Specialization of the chain lemma to the start of a run: with time index
1 pending, the scheduled chain executes 1, ..., 30 in strictly increasing
order and ends completed. -/
lemma runAnimPending_start (s : SimState) (hp : s.animPending = some 1) :
    (runAnimPending (simulationSteps + 1) s).2 = List.range' 1 simulationSteps
      ∧ List.Chain' (fun a b : ℕ => a < b)
          (0 :: (runAnimPending (simulationSteps + 1) s).2)
      ∧ (runAnimPending (simulationSteps + 1) s).1.simulationRunning = false
      ∧ (runAnimPending (simulationSteps + 1) s).1.animPending = none := by
  obtain ⟨h1, h2, h3⟩ := runAnimPending_complete 29 s (by rw [hp]) (by omega)
  have e1 : (30 : ℕ) - 29 = 1 := rfl
  have e2 : (29 : ℕ) + 1 = 30 := rfl
  rw [e1, e2] at h1
  refine ⟨?_, ?_, ?_, ?_⟩
  · show (runAnimPending (29 + 2) s).2 = List.range' 1 30
    exact h1
  · show List.Chain' _ (0 :: (runAnimPending (29 + 2) s).2)
    rw [h1]
    have h31 : List.range' 0 31 = 0 :: List.range' 1 30 := rfl
    rw [← h31]
    exact (List.pairwise_lt_range' 0 31).chain'
  · exact h2
  · exact h3

/-- C8: starting the simulation without an ignition point is rejected
synchronously with the alert message and no state change; starting with one
sets the running flag, renders time index 0, schedules index 1, and the
scheduled chain then executes indices 1, ..., 30 in strictly increasing
order (indices 0 to 29 render, the invocation at index 30 = stepCount
completes), after which the running flag is false and nothing further is
scheduled. -/
theorem animator_lifecycle_C8 (s : SimState) :
    (s.fireStartLatLng = none →
        simulateFireSpread s
          = (s, some "Please click on the map to set the starting point of the fire first."))
      ∧ (s.fireStartLatLng.isSome = true →
          (simulateFireSpread s).2 = none
          ∧ (simulateFireSpread s).1.simulationRunning = true
          ∧ (simulateFireSpread s).1.timeSliderValue = 0
          ∧ (simulateFireSpread s).1.animPending = some 1
          ∧ (runAnimPending (simulationSteps + 1) (simulateFireSpread s).1).2
              = List.range' 1 simulationSteps
          ∧ List.Chain' (fun a b : ℕ => a < b)
              (0 :: (runAnimPending (simulationSteps + 1)
                  (simulateFireSpread s).1).2)
          ∧ (runAnimPending (simulationSteps + 1)
              (simulateFireSpread s).1).1.simulationRunning = false
          ∧ (runAnimPending (simulationSteps + 1)
              (simulateFireSpread s).1).1.animPending = none) := by
  constructor
  · intro h
    unfold simulateFireSpread
    rw [h]
  · intro h
    obtain ⟨ll, hll⟩ := Option.isSome_iff_exists.mp h
    have hsim : simulateFireSpread s
        = ({ s with simulationRunning := true,
                    timeSliderValue := 0,
                    displayedMinutes := 0,
                    animPending := some 1 }, none) := by
      simp [simulateFireSpread, hll, animateFireSpreadStep, simulationSteps]
    have hchain := runAnimPending_start
      { s with simulationRunning := true, timeSliderValue := 0,
               displayedMinutes := 0, animPending := some 1 } rfl
    rw [hsim]
    exact ⟨rfl, rfl, rfl, rfl, hchain.1, hchain.2.1, hchain.2.2.1,
      hchain.2.2.2⟩

/-- C8 witness: the lifecycle theorem applied to a concrete state without an
ignition point and to a concrete state with one. -/
theorem animator_lifecycle_witness_C8 :
    (simulateFireSpread
        { fireStartLatLng := none, simulationRunning := false,
          timeSliderValue := 0, displayedMinutes := 0, coordsText := "c",
          addressText := "a", reasoningText := "r", nearestText := "n",
          emergencyShown := false, markerCount := 0, animPending := none,
          pollPending := none, envUpdatesRequested := 0 }
      = ({ fireStartLatLng := none, simulationRunning := false,
           timeSliderValue := 0, displayedMinutes := 0, coordsText := "c",
           addressText := "a", reasoningText := "r", nearestText := "n",
           emergencyShown := false, markerCount := 0, animPending := none,
           pollPending := none, envUpdatesRequested := 0 },
         some "Please click on the map to set the starting point of the fire first."))
    ∧ (runAnimPending (simulationSteps + 1)
        (simulateFireSpread
          { fireStartLatLng := some ⟨0, 0⟩, simulationRunning := false,
            timeSliderValue := 0, displayedMinutes := 0, coordsText := "c",
            addressText := "a", reasoningText := "r", nearestText := "n",
            emergencyShown := false, markerCount := 0, animPending := none,
            pollPending := none, envUpdatesRequested := 0 }).1).1.animPending
      = none :=
  ⟨(animator_lifecycle_C8
      { fireStartLatLng := none, simulationRunning := false,
        timeSliderValue := 0, displayedMinutes := 0, coordsText := "c",
        addressText := "a", reasoningText := "r", nearestText := "n",
        emergencyShown := false, markerCount := 0, animPending := none,
        pollPending := none, envUpdatesRequested := 0 }).1 rfl,
   ((animator_lifecycle_C8
      { fireStartLatLng := some ⟨0, 0⟩, simulationRunning := false,
        timeSliderValue := 0, displayedMinutes := 0, coordsText := "c",
        addressText := "a", reasoningText := "r", nearestText := "n",
        emergencyShown := false, markerCount := 0, animPending := none,
        pollPending := none, envUpdatesRequested := 0 }).2 rfl).2.2.2.2.2.2.2⟩

/-- C9 counterexample: clearing the fire from a concrete running state does
not return the animator to Idle and does not stop the scheduled
environmental poll.  The running flag survives the reset, and the very next
scheduled poll invocation reschedules itself (while an already-scheduled
animator tick re-reads no liveness flag at all), refuting the claim that a
reset prevents all already-scheduled work from taking further action via a
re-read liveness flag and returns the system to Idle. -/
theorem reset_counterexample_C9 :
    (clearFire
        { fireStartLatLng := some ⟨1, 2⟩, simulationRunning := true,
          timeSliderValue := 4, displayedMinutes := 4,
          coordsText := "Coordinates: 1, 2", addressText := "Address: x",
          reasoningText := "Reasoning: y", nearestText := "Nearest: z",
          emergencyShown := true, markerCount := 2, animPending := some 5,
          pollPending := some 3,
          envUpdatesRequested := 7 }).simulationRunning = true
    ∧ (recursiveUpdateEnvDataStep
        (clearFire
          { fireStartLatLng := some ⟨1, 2⟩, simulationRunning := true,
            timeSliderValue := 4, displayedMinutes := 4,
            coordsText := "Coordinates: 1, 2", addressText := "Address: x",
            reasoningText := "Reasoning: y", nearestText := "Nearest: z",
            emergencyShown := true, markerCount := 2, animPending := some 5,
            pollPending := some 3,
            envUpdatesRequested := 7 }) 3).pollPending = some 4 :=
  ⟨rfl, rfl⟩

/-- C9 amended: reset is idempotent and clears the ignition point, but it
leaves the running flag and any scheduled animator tick untouched, so it
does not by itself return the animator to Idle; an already-scheduled
environmental poll re-reads the running flag and the ignition point at its
start, performs no environmental update once the ignition point is cleared,
yet keeps rescheduling itself exactly while the running flag is set. -/
theorem reset_amended_C9 (s : SimState) :
    clearFire (clearFire s) = clearFire s
      ∧ (clearFire s).fireStartLatLng = none
      ∧ (clearFire s).simulationRunning = s.simulationRunning
      ∧ (clearFire s).animPending = s.animPending
      ∧ ∀ i : ℕ,
          (recursiveUpdateEnvDataStep (clearFire s) i).envUpdatesRequested
              = (clearFire s).envUpdatesRequested
            ∧ (recursiveUpdateEnvDataStep (clearFire s) i).pollPending
              = (if s.simulationRunning then some (i + 1) else none) := by
  refine ⟨rfl, rfl, rfl, rfl, ?_⟩
  intro i
  cases hb : s.simulationRunning <;>
    simp [recursiveUpdateEnvDataStep, clearFire, hb]

end FireSim
